import Mathlib

/-!
Verification development for the trackjoy repository (touchpad/keyboard →
virtual gamepad remapper plus hotplug orchestrator).

The numeric engine code operates on `f32`; it is embedded here over `ℚ` with
exact arithmetic, with the two float-specific behaviours that the code can
actually reach modelled explicitly:
* `Vec2::length` (a square root, in general irrational) is a parameter
  `len : ℚ × ℚ → ℚ` of the model; theorems that depend on it being a genuine
  Euclidean length carry hypotheses of the form `0 ≤ len v ∧ (len v)^2 = ...`
  at the probed vectors, and concrete runs instantiate it with a function that
  is correct on every vector the run probes.
* `f32::powf` with the configured `curve` / `y_smash` exponents is a parameter
  (`powC`, `powY`); concrete runs instantiate it with the identity, which is
  the exact `f32` behaviour of `powf (exponent 1.0)`, reachable with the
  configuration values `curve = 0` / `y_smash = 0` since `1.37^0 = 1.0`.
* Division by zero produces NaN/∞ in `f32`; in the one pipeline position where
  the source can divide by zero (the response-curve step, when the averaged
  touch distance equals `active_low` exactly) the model returns `none`,
  standing for a non-finite vector, and `NaN as i32 = 0` in Rust is modelled
  by mapping `none` to the clamped output `(0, 0)`.
-/

namespace Trackjoy

/-- Modelled from the spec: `DEST_MAX` of `trackjoycore/data.rs` (that file is
not in the tree); `src/main.rs` fixes the destination axis range as
`const DEST_MAX: i32 = 1024`. -/
def DEST_MAX : ℤ := 1024

/-- Modelled from the spec: `DEST_HALF = DEST_MAX / 2` per `src/main.rs`. -/
def DEST_HALF : ℤ := 512

/-! ## Pad remapping engine (src/bin/trackjoycore/pad.rs) -/

/-- `TouchBake` of pad.rs: per-slot classification. -/
inductive TouchBake
  | Indeterminate
  | Axis
  | Button (i : ℕ)
deriving DecidableEq

/-- `TouchState` of pad.rs. Positions are source device units (sent as `i32`,
stored as `f32`); embedded as `ℚ`. -/
structure TouchState where
  enabled : Bool
  pos : ℚ × ℚ
  baked : TouchBake
deriving DecidableEq

/-- The `[bool; 4]` button frame of pad.rs. -/
structure Buttons where
  b0 : Bool
  b1 : Bool
  b2 : Bool
  b3 : Bool
deriving DecidableEq

def noButtons : Buttons := ⟨false, false, false, false⟩

def Buttons.get (b : Buttons) : ℕ → Bool
  | 0 => b.b0
  | 1 => b.b1
  | 2 => b.b2
  | _ => b.b3

/-- `buttons[i] = true` of pad.rs (the scan only ever sets a flag). -/
def Buttons.set (b : Buttons) : ℕ → Buttons
  | 0 => { b with b0 := true }
  | 1 => { b with b1 := true }
  | 2 => { b with b2 := true }
  | _ => { b with b3 := true }

/-- The per-device parameters of `pad::build`, after the spatial prep:
`source_middle`, `unit_divisor`, the two `powf` closures, `Vec2::length`,
and the dead-zone/multitouch settings. -/
structure PadParams where
  middle : ℚ × ℚ
  unitDiv : ℚ × ℚ
  powY : ℚ → ℚ
  powC : ℚ → ℚ
  len : ℚ × ℚ → ℚ
  activeLow : ℚ
  activeHigh : ℚ
  multitouch : Bool

/-- `f32::clamp(lo, hi)`: `if self < min { min } else if self > max { max }`. -/
def clampQ (x lo hi : ℚ) : ℚ := if x < lo then lo else if hi < x then hi else x

/-- pad.rs lines 134-137: normalize a raw position into unit space and apply
the vertical `y_smash` compression
`y = ((y / 2 + 0.52).clamp(0., 1.1).powf(y_smash) - 0.52) * 2`. -/
def unitspaceOf (P : PadParams) (pos : ℚ × ℚ) : ℚ × ℚ :=
  let x := (pos.1 - P.middle.1) / P.unitDiv.1
  let y0 := (pos.2 - P.middle.2) / P.unitDiv.2
  (x, (P.powY (clampQ (y0 / 2 + 13 / 25) 0 (11 / 10)) - 13 / 25) * 2)

/-- pad.rs lines 145-150: quadrant selection by `(x >= 0., y >= 0.)`. -/
def quadrant (u : ℚ × ℚ) : ℕ :=
  if 0 ≤ u.1 then (if 0 ≤ u.2 then 0 else 2) else (if 0 ≤ u.2 then 1 else 3)

/-- pad.rs lines 124-163: the per-slot scan of a `SYN_REPORT` flush.  `i` is
`state_i`; a slot is skipped when `!state.enabled` or when
`state_i > 0 && !multitouch`; otherwise its unit-space vector is computed,
an `Indeterminate` slot is baked (`Axis` iff `length() <= 1.`, else the
quadrant button), and the slot contributes to the axis sum or button frame.
Returns the updated slots plus `(axis_sum, axis_sum_count, buttons)`. -/
def padScanAux (P : PadParams) :
    ℕ → List TouchState → (ℚ × ℚ) → ℕ → Buttons →
    (List TouchState × (ℚ × ℚ) × ℕ × Buttons)
  | _, [], sum, cnt, btns => ([], sum, cnt, btns)
  | i, st :: rest, sum, cnt, btns =>
    if st.enabled = false then
      let r := padScanAux P (i + 1) rest sum cnt btns
      (st :: r.1, r.2)
    else if 0 < i ∧ P.multitouch = false then
      let r := padScanAux P (i + 1) rest sum cnt btns
      (st :: r.1, r.2)
    else
      let u := unitspaceOf P st.pos
      match st.baked with
      | .Indeterminate =>
        if P.len u ≤ 1 then
          let r := padScanAux P (i + 1) rest (sum.1 + u.1, sum.2 + u.2) (cnt + 1) btns
          ({ st with baked := .Axis } :: r.1, r.2)
        else
          let q := quadrant u
          let r := padScanAux P (i + 1) rest sum cnt (btns.set q)
          ({ st with baked := .Button q } :: r.1, r.2)
      | .Axis =>
        let r := padScanAux P (i + 1) rest (sum.1 + u.1, sum.2 + u.2) (cnt + 1) btns
        (st :: r.1, r.2)
      | .Button q =>
        let r := padScanAux P (i + 1) rest sum cnt (btns.set q)
        (st :: r.1, r.2)

/-- pad.rs lines 167-186: dead zones and response curve applied to the
averaged axis vector (`axis_sum / axis_sum_count`).  `none` models a
non-finite (NaN) result: when the average's distance equals `active_low`
exactly, `activespace_dist = 0` and the source computes
`activespace_dist.powf(curve) / activespace_dist = 0/0 = NaN` (when the
outer-dead-zone division normalizes a zero-length vector, `0/0` likewise). -/
def shapeSum (P : PadParams) (sum : ℚ × ℚ) (cnt : ℕ) : Option (ℚ × ℚ) :=
  let v : ℚ × ℚ := (sum.1 / (cnt : ℚ), sum.2 / (cnt : ℚ))
  let dist := P.len v
  if dist < P.activeLow then
    some (0, 0)
  else if P.activeHigh ≤ dist then
    if dist = 0 then none else some (v.1 / dist, v.2 / dist)
  else
    let ad := (dist - P.activeLow) / (P.activeHigh - P.activeLow)
    if ad = 0 ∨ dist = 0 then none
    else
      some ((v.1 * (ad / dist)) * (P.powC ad / ad),
            (v.2 * (ad / dist)) * (P.powC ad / ad))

/-- Rust truncating float→int cast (`as i32` rounds toward zero). -/
def truncQ (q : ℚ) : ℤ := Int.tdiv q.num (q.den : ℤ)

/-- `(out as i32).clamp(0, DEST_MAX)` of pad.rs line 188. -/
def clampDest (z : ℤ) : ℤ := if z < 0 then 0 else if DEST_MAX < z then DEST_MAX else z

/-- pad.rs lines 167-191: the `[i32; 2]` axis value of one flush.  With no
axis-classified touch the output is the neutral midpoint; a NaN vector
(`none`) casts to `0` per Rust float→int saturation, then clamps to `0`. -/
def axisFromScan (P : PadParams) (sum : ℚ × ℚ) (cnt : ℕ) : ℤ × ℤ :=
  if 0 < cnt then
    match shapeSum P sum cnt with
    | none => (0, 0)
    | some u =>
      (clampDest (truncQ (u.1 * (DEST_HALF : ℚ) + (DEST_HALF : ℚ))),
       clampDest (truncQ (u.2 * (DEST_HALF : ℚ) + (DEST_HALF : ℚ))))
  else
    (DEST_HALF, DEST_HALF)

/-- One event sent to the shared virtual device.  Axes and buttons are
identified by their index into `axis_codes` / `button_codes`. -/
inductive OutEvent
  | axis (idx : ℕ) (value : ℤ)
  | key (idx : ℕ) (pressed : Bool)
deriving DecidableEq

/-- The engine `State` of pad.rs lines 92-98 (minus the device handle). -/
structure PadState where
  slot : ℕ
  lastAxis : ℤ × ℤ
  lastButtons : Buttons
  touchStates : List TouchState
deriving DecidableEq

def initTouch (middle : ℚ × ℚ) : TouchState :=
  { enabled := false, pos := middle, baked := .Indeterminate }

/-- pad.rs lines 100-110: initial engine state; note `last_axis: [0i32; 2]`. -/
def initPad (middle : ℚ × ℚ) : PadState :=
  { slot := 0, lastAxis := (0, 0), lastButtons := noButtons,
    touchStates := [initTouch middle] }

/-- The scan plus axis computation of one flush: updated slots, axis pair,
button frame. -/
def padComputed (P : PadParams) (s : PadState) :
    List TouchState × (ℤ × ℤ) × Buttons :=
  let r := padScanAux P 0 s.touchStates (0, 0) 0 noButtons
  (r.1, axisFromScan P r.2.1 r.2.2.1, r.2.2.2)

/-- pad.rs lines 119-218: a `SYN_REPORT` flush.  Axis events are pushed only
on change from `last_axis` (both axes together), then per-button transitions
in index order; the computed values become `last_axis` / `last_buttons`. -/
def padFlush (P : PadParams) (s : PadState) : PadState × List OutEvent :=
  let c := padComputed P s
  let axis := c.2.1
  let btns := c.2.2
  let axisEvents : List OutEvent :=
    if axis = s.lastAxis then [] else [.axis 0 axis.1, .axis 1 axis.2]
  let btnEvents : List OutEvent :=
    (List.range 4).filterMap fun i =>
      if btns.get i = true ∧ s.lastButtons.get i = false then some (.key i true)
      else if btns.get i = false ∧ s.lastButtons.get i = true then some (.key i false)
      else none
  ({ s with lastAxis := axis, lastButtons := btns, touchStates := c.1 },
   axisEvents ++ btnEvents)

/-- The raw input events the pad engine handles (pad.rs lines 118-260).
`syn` is `SYN_REPORT`; positions arrive as integers and are stored as floats,
embedded as `ℚ`. -/
inductive PadEvent
  | syn
  | slot (v : ℕ)
  | posX (v : ℚ)
  | posY (v : ℚ)
  | tracking (v : ℤ)
  | other
deriving DecidableEq

/-- In-place update of list element `i` (Rust `state.touch_states[i]`;
indices are in bounds in every reachable state, out-of-bounds is a no-op
here where Rust would panic). -/
def modifyAt {α : Type} : ℕ → (α → α) → List α → List α
  | _, _, [] => []
  | 0, f, x :: xs => f x :: xs
  | n + 1, f, x :: xs => x :: modifyAt n f xs

/-- pad.rs lines 221-229: `ABS_MT_SLOT` grows the slot vector to `v + 1`. -/
def growTouches (middle : ℚ × ℚ) (n : ℕ) (l : List TouchState) : List TouchState :=
  l ++ List.replicate (n - l.length) (initTouch middle)

/-- One step of the pad engine event loop (pad.rs lines 111-261).  The
`tracking` case models lines 237-256: setting `enabled = value != -1`, and on
release the stuck-button workaround that force-resets every other enabled
slot baked to the same button before resetting the released slot itself. -/
def stepPad (P : PadParams) (s : PadState) (ev : PadEvent) :
    PadState × List OutEvent :=
  match ev with
  | .syn => padFlush P s
  | .slot v =>
    ({ s with slot := v, touchStates := growTouches P.middle (v + 1) s.touchStates }, [])
  | .posX v =>
    ({ s with touchStates :=
        modifyAt s.slot (fun st => { st with pos := (v, st.pos.2) }) s.touchStates }, [])
  | .posY v =>
    ({ s with touchStates :=
        modifyAt s.slot (fun st => { st with pos := (st.pos.1, v) }) s.touchStates }, [])
  | .tracking v =>
    let enabled : Bool := decide (v ≠ -1)
    let ts1 := modifyAt s.slot (fun st => { st with enabled := enabled }) s.touchStates
    if enabled then ({ s with touchStates := ts1 }, [])
    else
      let ts2 :=
        match (ts1.get? s.slot).map TouchState.baked with
        | some (.Button i) =>
          ts1.map fun st =>
            if st.enabled = true ∧ st.baked = .Button i then
              { st with enabled := false, baked := .Indeterminate }
            else st
        | _ => ts1
      ({ s with touchStates :=
          modifyAt s.slot (fun st => { st with baked := .Indeterminate }) ts2 }, [])
  | .other => (s, [])

/-- Run the pad engine over an event list, collecting emitted events. -/
def runPad (P : PadParams) : PadState → List PadEvent → PadState × List OutEvent
  | s, [] => (s, [])
  | s, ev :: rest =>
    let r := stepPad P s ev
    let r2 := runPad P r.1 rest
    (r2.1, r.2 ++ r2.2)

/-! ## Key remapping engine (src/bin/trackjoycore/keys.rs) -/

/-- keys.rs lines 54-73: a `SYN_REPORT` flush of the keys engine.  `buttons`
is the current per-destination-code state (a `HashMap`, embedded as an
association list with distinct keys), `last` the last-reported state; one
press/release event is emitted per differing code, then
`last_buttons = buttons.clone()`. -/
def keysFlush (buttons last : List (ℕ × Bool)) :
    List OutEvent × List (ℕ × Bool) :=
  (buttons.filterMap fun kb =>
    let lastOn := ((last.lookup kb.1).getD false)
    if kb.2 = true ∧ lastOn = false then some (.key kb.1 true)
    else if kb.2 = false ∧ lastOn = true then some (.key kb.1 false)
    else none,
   buttons)

/-! ## Hotplug orchestrator (src/bin/trackjoy-juggler.rs) -/

/-- `DevType` of trackjoy-juggler.rs; the derived `Ord` puts `Keys < Pad`. -/
inductive DevType
  | Keys
  | Pad
deriving DecidableEq

def DevType.rank : DevType → ℕ
  | .Keys => 0
  | .Pad => 1

/-- A parsed device node of the attribute policy:
`((type, configuration, interface), file_name)`.  File names are opaque
sortable identities, embedded as `ℕ`. -/
def Node : Type := (DevType × ℕ × ℕ) × ℕ

instance : DecidableEq Node := by unfold Node; infer_instance

/-- The derived lexicographic `Ord` Rust uses to `sort` the per-physical-path
node lists: type first (`Keys < Pad`), then configuration, then interface,
then file name. -/
def nodeLe (a b : Node) : Prop :=
  a.1.1.rank < b.1.1.rank ∨
    (a.1.1.rank = b.1.1.rank ∧
      (a.1.2.1 < b.1.2.1 ∨
        (a.1.2.1 = b.1.2.1 ∧
          (a.1.2.2 < b.1.2.2 ∨ (a.1.2.2 = b.1.2.2 ∧ a.2 ≤ b.2)))))

instance : DecidableRel nodeLe := by
  intro a b
  unfold nodeLe
  infer_instance

/-- trackjoy-juggler.rs lines 225-228: `v.sort(); v.pop().unwrap()` — keep the
maximum node of one physical path.  Rust `Vec::sort` is a stable comparison
sort; it is embedded as insertion sort, which computes the same list for the
total preorder `nodeLe`. -/
def selectBest (v : List Node) : Option Node :=
  (List.insertionSort nodeLe v).getLast?

/-- Ordering on grouping descriptors `(DevType, identity)` (Rust derived
lexicographic `Ord` on `(DevType, String)`; identities embedded as `ℕ`). -/
def devLe (a b : DevType × ℕ) : Prop :=
  a.1.rank < b.1.rank ∨ (a.1.rank = b.1.rank ∧ a.2 ≤ b.2)

instance : DecidableRel devLe := by
  intro a b
  unfold devLe
  infer_instance

/-- trackjoy-juggler.rs lines 60-77: the inner scan of `find_groupings` —
count of the longest prefix whose running per-type counts stay within the
quotas (`ok_until`). -/
def okUntil (wantKeys wantPads : ℕ) (kc pc : ℕ) :
    List (DevType × ℕ) → ℕ
  | [] => 0
  | (t, _) :: rest =>
    let kc2 := match t with | .Keys => kc + 1 | .Pad => kc
    let pc2 := match t with | .Keys => pc | .Pad => pc + 1
    if wantKeys < kc2 ∨ wantPads < pc2 then 0
    else okUntil wantKeys wantPads kc2 pc2 rest + 1

def noConfigMsg : String := "Encountered device type with no config"

/-- trackjoy-juggler.rs lines 60-89: the grouping loop over the sorted
descriptor list: split off maximal prefixes; if no prefix element fits
(`ok_until == 0`) fail with the no-config error. -/
def findGroupingsGo (wantKeys wantPads : ℕ) (values : List (DevType × ℕ)) :
    Except String (List (List (DevType × ℕ))) :=
  if h : values = [] then .ok []
  else
    let n := okUntil wantKeys wantPads 0 0 values
    if hn : n = 0 then .error noConfigMsg
    else
      match findGroupingsGo wantKeys wantPads (values.drop n) with
      | .error e => .error e
      | .ok gs => .ok (values.take n :: gs)
termination_by values.length
decreasing_by
  simp only [List.length_drop]
  cases values with
  | nil => exact absurd rfl h
  | cons x xs => simp only [List.length_cons]; omega

/-- trackjoy-juggler.rs lines 53-91: `find_groupings` sorts, then groups. -/
def find_groupings (wantKeys wantPads : ℕ) (values : List (DevType × ℕ)) :
    Except String (List (List (DevType × ℕ))) :=
  findGroupingsGo wantKeys wantPads (List.insertionSort devLe values)

/-! ## Debounce loop (trackjoy-juggler.rs lines 139-160) -/

/-- A notification delivered on the watcher channel during settling: either a
normal filesystem event or one carrying an I/O error (both are `Some(..)` on
the channel; closure ends the loop and is outside this model). -/
inductive NotifKind
  | ok
  | err
deriving DecidableEq

/-- The settling loop: window start `start` (ms), notifications as
`(arrival time, kind)` in order.  Each loop iteration awaits
`timeout(1000, recv())` afresh; a notification arriving inside the window —
error or not, both arms `continue` — becomes the new window start; quiet
expiry fires the reconcile pass at `start + 1000`.  Returns the firing
instant. -/
def settleFire (start : ℕ) : List (ℕ × NotifKind) → ℕ
  | [] => start + 1000
  | (t, _) :: rest => if t < start + 1000 then settleFire t rest else start + 1000

/-! ## Dead-zone startup check (src/bin/trackjoy.rs lines 79-86) -/

/-- trackjoy.rs lines 82-83: resolve config options into
`(active_low, active_high) = (dead_inner ?? 0.0, 1 - (dead_outer ?? 0.4))`. -/
def resolveActive (deadInner deadOuter : Option ℚ) : ℚ × ℚ :=
  (deadInner.getD 0, 1 - deadOuter.getD (2 / 5))

/-- trackjoy.rs lines 84-86 (identically src/main.rs lines 88-90): the fatal
startup check `if active_high - active_low < 0.`. -/
def deadZonesOverlap (activeLow activeHigh : ℚ) : Bool :=
  decide (activeHigh - activeLow < 0)

/-! ## Earlier engine revision (src/pad.rs, `State::flush` lines 147-169) -/

/-- src/pad.rs lines 147-169: the earlier revision of the averaged-vector
shaping.  Between the dead zones it computes
`v = (v - normalize(v) * active_low) / (active_high - active_low)` and then
applies the curve to the rescaled vector,
`v * (v.length().powf(curve) / v.length())`.  As in `shapeSum`, `none`
models a non-finite result: at distance exactly `active_low` the rescaled
vector is zero, so the curve step divides by zero
(`normalize` of a zero-length vector likewise). -/
def shapeSumLegacy (P : PadParams) (sum : ℚ × ℚ) (cnt : ℕ) : Option (ℚ × ℚ) :=
  let v : ℚ × ℚ := (sum.1 / (cnt : ℚ), sum.2 / (cnt : ℚ))
  let dist := P.len v
  if dist < P.activeLow then
    some (0, 0)
  else if dist = 0 then none
  else
    let w : ℚ × ℚ :=
      if P.activeHigh ≤ dist then (v.1 / dist, v.2 / dist)
      else ((v.1 - (v.1 / dist) * P.activeLow) / (P.activeHigh - P.activeLow),
            (v.2 - (v.2 / dist) * P.activeLow) / (P.activeHigh - P.activeLow))
    let dist2 := P.len w
    if dist2 = 0 then none
    else some (w.1 * (P.powC dist2 / dist2), w.2 * (P.powC dist2 / dist2))

/-! ## Concrete instances used in counterexamples and witnesses

Every run below probes `len` only on vectors of the form `(x, 0)` with
`0 ≤ x`, where the Euclidean length is exactly `x`; `lenEx` computes it
there (the counterexample theorems record this with explicit
`0 ≤ lenEx v ∧ (lenEx v)^2 = v.1^2 + v.2^2` conjuncts at the probed
vectors).  `powY`/`powC` are the identity, the exact `f32` behaviour of
`powf` with exponent `1.0` (configuration `curve = 0` / `y_smash = 0`,
since `1.37f32.powf(0.0) = 1.0`). -/

/-- Euclidean length on axis-aligned vectors with nonnegative coordinate. -/
def lenEx (v : ℚ × ℚ) : ℚ :=
  if v.2 = 0 then (if v.1 < 0 then -v.1 else v.1) else 0

/-- A concrete pad-parameter set: device range `[-100, 100]` on both source
axes with equal resolutions (so `source_middle = (0, 0)` and
`unit_divisor = (100, 100)`), `active_low = 1/2`, `active_high = 3/4`,
multitouch disabled. -/
def padParamsEx : PadParams :=
  { middle := (0, 0), unitDiv := (100, 100), powY := fun x => x,
    powC := fun x => x, len := lenEx, activeLow := 1 / 2, activeHigh := 3 / 4,
    multitouch := false }

/-- `padParamsEx` with multitouch enabled. -/
def padParamsExMT : PadParams := { padParamsEx with multitouch := true }

/-- A touch at source position `(300, 0)`: unit-space vector `(3, 0)`,
length `3 > 1`, so it bakes to `Button 0` when processed. -/
def touchFarRight : TouchState :=
  { enabled := true, pos := (300, 0), baked := .Indeterminate }

/-- Engine state whose slot 0 is disabled and slot 1 is enabled (the lowest
*enabled* slot therefore has index 1). -/
def stateSlot1Enabled : PadState :=
  { slot := 0, lastAxis := (0, 0), lastButtons := noButtons,
    touchStates := [initTouch (0, 0), touchFarRight] }

/-- Event sequence producing two enabled slots both baked to `Button 0`:
touch slot 0 at `(300, 0)`, flush, switch to slot 1, touch it at `(300, 0)`,
flush. -/
def eventsTwoStacked : List PadEvent :=
  [.tracking 1, .posX 300, .syn, .slot 1, .tracking 2, .posX 300, .syn]

/-- Event sequence whose first flush sees a single enabled touch at
unit-space `(1/2, 0)`, distance exactly `active_low` of `padParamsEx`. -/
def eventsBoundaryTouch : List PadEvent := [.tracking 1, .posX 50, .syn]

/-- A state with slot 0 enabled and already baked to `Axis`. -/
def stateAxisBaked : PadState :=
  { slot := 0, lastAxis := (0, 0), lastButtons := noButtons,
    touchStates := [{ enabled := true, pos := (5, 5), baked := .Axis }] }

/-- Per-path node list of the C2 counterexample: a `Keys` node with
`(configuration, interface) = (9, 9)` and a `Pad` node with `(1, 1)`,
sharing one physical path. -/
def nodesMixed : List Node := [((DevType.Keys, 9, 9), 1), ((DevType.Pad, 1, 1), 2)]

/-- `nodesMixed` with the two device types exchanged, `(configuration,
interface, name)` kept fixed. -/
def nodesMixedSwap : List Node := [((DevType.Pad, 9, 9), 1), ((DevType.Keys, 1, 1), 2)]

/-! # Theorems -/

/-- C3: evaluating the coordinate pipeline at the failing input.  A single
Axis-classified touch whose averaged unit-space vector is `(1/2, 0)` — of
magnitude exactly `active_low = 1/2 < active_high = 3/4` — makes the
response-curve step of pad.rs line 184 compute
`activespace_dist.powf(curve) / activespace_dist = 0/0 = NaN`, and
`NaN as i32 = 0` then yields the destination pair `(0, 0)` (the bottom-left
corner), not the midpoint `(DEST_HALF, DEST_HALF)` the spec requires.  The
earlier revision (src/pad.rs `State::flush`) computes NaN at the same input.
The last conjuncts record that `lenEx` is the genuine Euclidean length at
the probed vectors and that the probed magnitude equals `active_low`. -/
theorem C3_boundary_nan_eval :
    shapeSum padParamsEx (1 / 2, 0) 1 = none ∧
    axisFromScan padParamsEx (1 / 2, 0) 1 = (0, 0) ∧
    axisFromScan padParamsEx (1 / 2, 0) 1 ≠ (DEST_HALF, DEST_HALF) ∧
    shapeSumLegacy padParamsEx (1 / 2, 0) 1 = none ∧
    (0 ≤ lenEx (1 / 2, 0) ∧ lenEx (1 / 2, 0) ^ 2 = (1 / 2 : ℚ) ^ 2 + 0 ^ 2) ∧
    (0 ≤ lenEx (0, 0) ∧ lenEx (0, 0) ^ 2 = (0 : ℚ) ^ 2 + 0 ^ 2) ∧
    lenEx (1 / 2, 0) = padParamsEx.activeLow := by
  norm_num [shapeSum, shapeSumLegacy, axisFromScan, lenEx, padParamsEx,
    DEST_HALF, truncQ, clampDest, Prod.ext_iff]

/-- C4 counterexample: the claim says a notification carrying an error leaves
the quiet window unchanged, so the reconcile pass fires at the same instant
as if it had not arrived.  On the code, a settle window opened at t = 0 with
an error notification arriving at t = 500 fires at t = 1500, while without
that notification it fires at t = 1000: the error restarted the window. -/
theorem C4_error_restart_counterexample :
    settleFire 0 [(500, NotifKind.err)] ≠ settleFire 0 [] ∧
    settleFire 0 [(500, NotifKind.err)] = 1500 ∧ settleFire 0 [] = 1000 := by
  refine ⟨?_, ?_, ?_⟩ <;> decide

/-- C4 amended: in the settling state both arms of the notification match
`continue` into a fresh `timeout(1000, recv())`, so an error notification
restarts the 1000 ms quiet window exactly like a successful one — the firing
instant depends only on the notification arrival times, and any notification
inside the window moves the window start to its arrival time. -/
theorem C4_error_restarts_window :
    (∀ (start : ℕ) (l : List (ℕ × NotifKind)),
        settleFire start l = settleFire start (l.map fun p => (p.1, NotifKind.ok))) ∧
    (∀ (start t : ℕ) (k : NotifKind) (rest : List (ℕ × NotifKind)),
        t < start + 1000 → settleFire start ((t, k) :: rest) = settleFire t rest) := by
  constructor
  · intro start l
    induction l generalizing start with
    | nil => rfl
    | cons p rest ih =>
      obtain ⟨t, k⟩ := p
      simp only [List.map, settleFire]
      split
      · exact ih t
      · rfl
  · intro start t k rest h
    simp [settleFire, h]

/-- C4 witness: the amended theorem at window start 0 and an error
notification at t = 500. -/
theorem C4_error_restarts_window_witness :
    settleFire 0 [(500, NotifKind.err)] = settleFire 500 [] :=
  C4_error_restarts_window.2 0 500 NotifKind.err [] (by decide)

/-- C5 counterexample: the claim says a configuration with
`1 - dead_outer = dead_inner` is rejected as fatal.  With
`dead_inner = dead_outer = 1/2` the resolved values give
`active_high - active_low = 0`, the check `active_high - active_low < 0.`
does not fire, and startup proceeds — even though `1 - dead_outer > dead_inner`
fails. -/
theorem C5_equality_accepted_counterexample :
    deadZonesOverlap (resolveActive (some (1 / 2)) (some (1 / 2))).1
        (resolveActive (some (1 / 2)) (some (1 / 2))).2 = false ∧
    ¬ ((1 : ℚ) - 1 / 2 > 1 / 2) := by
  norm_num [deadZonesOverlap, resolveActive]

/-- C5 amended: startup fails fatally if and only if
`1 - dead_outer < dead_inner` strictly (dead zones overlapping); the
boundary configuration `1 - dead_outer = dead_inner` is accepted. -/
theorem C5_overlap_iff :
    ∀ deadInner deadOuter : Option ℚ,
      deadZonesOverlap (resolveActive deadInner deadOuter).1
          (resolveActive deadInner deadOuter).2 = true
        ↔ 1 - deadOuter.getD (2 / 5) < deadInner.getD 0 := by
  intro di dOut
  simp [deadZonesOverlap, resolveActive, sub_neg]

/-- Scanning a list of disabled slots contributes nothing and changes
nothing. -/
theorem padScanAux_disabled (P : PadParams) :
    ∀ (l : List TouchState) (i : ℕ) (sum : ℚ × ℚ) (cnt : ℕ) (btns : Buttons),
      (∀ st ∈ l, st.enabled = false) →
      padScanAux P i l sum cnt btns = (l, sum, cnt, btns) := by
  intro l
  induction l with
  | nil => intro i sum cnt btns _; rfl
  | cons st rest ih =>
    intro i sum cnt btns h
    have hst : st.enabled = false := h st (by simp)
    simp [padScanAux, hst, ih (i + 1) sum cnt btns (fun x hx => h x (by simp [hx]))]

/-- C6: whenever the first descriptor of the (sorted) remaining input has a
device type whose quota is zero, `find_groupings` fails with the
no-configuration error instead of skipping it; in particular with
`want_keys = 0, want_pads = 1` and one `Keys` plus one `Pad` descriptor,
grouping fails even though a `Pad`-only group would satisfy the quotas
(after sorting, the `Keys` descriptor comes first). -/
theorem C6_quota_zero_error :
    (∀ (wantKeys wantPads : ℕ) (t : DevType) (id : ℕ)
        (rest : List (DevType × ℕ)),
        (t = DevType.Keys ∧ wantKeys = 0) ∨ (t = DevType.Pad ∧ wantPads = 0) →
        findGroupingsGo wantKeys wantPads ((t, id) :: rest) = .error noConfigMsg) ∧
    find_groupings 0 1 [(DevType.Pad, 2), (DevType.Keys, 1)] = .error noConfigMsg := by
  have h1 : ∀ (wantKeys wantPads : ℕ) (t : DevType) (id : ℕ)
      (rest : List (DevType × ℕ)),
      (t = DevType.Keys ∧ wantKeys = 0) ∨ (t = DevType.Pad ∧ wantPads = 0) →
      findGroupingsGo wantKeys wantPads ((t, id) :: rest) = .error noConfigMsg := by
    intro wantKeys wantPads t id rest h
    rw [findGroupingsGo]
    have hok : okUntil wantKeys wantPads 0 0 ((t, id) :: rest) = 0 := by
      rcases h with ⟨ht, hq⟩ | ⟨ht, hq⟩ <;> subst ht <;> subst hq <;> simp [okUntil]
    simp [hok]
  refine ⟨h1, ?_⟩
  have hs : List.insertionSort devLe [(DevType.Pad, 2), (DevType.Keys, 1)]
      = [(DevType.Keys, 1), (DevType.Pad, 2)] := by
    simp [List.insertionSort, List.orderedInsert, devLe, DevType.rank]
  unfold find_groupings
  rw [hs]
  exact h1 0 1 DevType.Keys 1 [(DevType.Pad, 2)] (Or.inl ⟨rfl, rfl⟩)

/-- C6 witness: the general part at `want_pads = 0` with a `Pad` descriptor
first in the remaining input. -/
theorem C6_quota_zero_error_witness :
    findGroupingsGo 3 0 [(DevType.Pad, 7)] = .error noConfigMsg :=
  C6_quota_zero_error.1 3 0 DevType.Pad 7 [] (Or.inr ⟨rfl, rfl⟩)

/-- C10 counterexample: the claim says the first synchronization-frame flush
always emits axis events.  Here the first flush computes the axis pair
`(0, 0)` — a single enabled touch whose averaged vector has magnitude exactly
`active_low` makes the pipeline produce NaN, cast to `0` — which equals the
initial `last_axis = [0, 0]`, so the whole run emits zero events.  The last
conjuncts record that `lenEx` is the genuine Euclidean length at both probed
vectors. -/
theorem C10_first_flush_counterexample :
    (runPad padParamsEx (initPad (0, 0)) eventsBoundaryTouch).2 = [] ∧
    (0 ≤ lenEx (1 / 2, 0) ∧ lenEx (1 / 2, 0) ^ 2 = (1 / 2 : ℚ) ^ 2 + 0 ^ 2) := by
  constructor
  · norm_num [runPad, stepPad, padFlush, padComputed, padScanAux, unitspaceOf,
      shapeSum, axisFromScan, modifyAt, growTouches, initPad, initTouch, clampQ,
      quadrant, lenEx, padParamsEx, truncQ, clampDest, noButtons, Buttons.set,
      Buttons.get, eventsBoundaryTouch, List.range_succ]
  · norm_num [lenEx]

/-- C10 amended: the engine initializes `last_axis` to `[0, 0]`, not the
neutral midpoint, so the first flush emits the two axis events whenever its
computed axis pair differs from `[0, 0]` — in particular always when no
touch slot is enabled, since the computed pair is then the midpoint
`[DEST_HALF, DEST_HALF] ≠ [0, 0]`.  (The counterexample shows the claim's
unqualified "always": a NaN corner case computes `[0, 0]` and emits
nothing.) -/
theorem C10_first_flush_emits :
    ∀ (P : PadParams) (s : PadState),
      s.lastAxis = (0, 0) →
      s.lastButtons = noButtons →
      (∀ st ∈ s.touchStates, st.enabled = false) →
      (padFlush P s).2 = [.axis 0 DEST_HALF, .axis 1 DEST_HALF] := by
  intro P s hAxis hBtns hDis
  have hscan := padScanAux_disabled P s.touchStates 0 (0, 0) 0 noButtons hDis
  simp only [padFlush, padComputed, hscan]
  norm_num [axisFromScan, hAxis, hBtns, DEST_HALF, Prod.ext_iff, List.range_succ,
    Buttons.get, noButtons]

/-- C10 witness: the amended theorem at the initial engine state. -/
theorem C10_first_flush_emits_witness :
    (padFlush padParamsEx (initPad (0, 0))).2 = [.axis 0 DEST_HALF, .axis 1 DEST_HALF] :=
  C10_first_flush_emits padParamsEx (initPad (0, 0)) rfl rfl
    (by simp [initPad, initTouch])

/-- With multitouch disabled, the scan skips every slot from index 1 on. -/
theorem padScanAux_skip_of_pos (P : PadParams) (hmt : P.multitouch = false) :
    ∀ (l : List TouchState) (i : ℕ) (sum : ℚ × ℚ) (cnt : ℕ) (btns : Buttons),
      1 ≤ i → padScanAux P i l sum cnt btns = (l, sum, cnt, btns) := by
  intro l
  induction l with
  | nil => intro i sum cnt btns _; rfl
  | cons st rest ih =>
    intro i sum cnt btns hi
    have hi' : 0 < i := by omega
    by_cases hst : st.enabled = false
    · simp [padScanAux, hst, ih (i + 1) sum cnt btns (by omega)]
    · simp [padScanAux, hst, hmt, hi', ih (i + 1) sum cnt btns (by omega)]

/-- C1 counterexample: the claim says that with multitouch disabled the
enabled slot with the lowest index participates in the flush, even when that
index is positive.  In `stateSlot1Enabled` slot 0 is disabled and slot 1 is
the (only, hence lowest-indexed) enabled slot, sitting at unit-space
`(3, 0)`, outside the unit circle.  With multitouch disabled the flush
leaves it unbaked and computes the neutral axis midpoint with no button
pressed — it did not participate; the same state scanned with multitouch
enabled bakes it to `Button 0` and presses that button.  The last conjunct
records that `lenEx` is the genuine Euclidean length at the probed
vector. -/
theorem C1_lowest_enabled_counterexample :
    (padComputed padParamsEx stateSlot1Enabled).1.get? 1 = some touchFarRight ∧
    touchFarRight.enabled = true ∧ touchFarRight.baked = .Indeterminate ∧
    (padComputed padParamsEx stateSlot1Enabled).2 = ((DEST_HALF, DEST_HALF), noButtons) ∧
    (padComputed padParamsExMT stateSlot1Enabled).1.get? 1 =
      some { touchFarRight with baked := .Button 0 } ∧
    (padComputed padParamsExMT stateSlot1Enabled).2.2.get 0 = true ∧
    (0 ≤ lenEx (3, 0) ∧ lenEx (3, 0) ^ 2 = (3 : ℚ) ^ 2 + 0 ^ 2) := by
  refine ⟨?_, rfl, rfl, ?_, ?_, ?_, ?_⟩ <;>
    norm_num [padComputed, padScanAux, unitspaceOf, shapeSum, axisFromScan,
      stateSlot1Enabled, initTouch, touchFarRight, clampQ, quadrant, lenEx,
      padParamsEx, padParamsExMT, truncQ, clampDest, noButtons, Buttons.set,
      Buttons.get, DEST_HALF, Prod.ext_iff]

/-- C1 amended: with multitouch disabled only slot 0 can participate in a
flush — the scan of any slot list equals the scan of slot 0 alone, with
every higher-indexed slot returned unchanged and contributing nothing (so if
slot 0 is disabled, no slot participates, even when higher-indexed slots are
enabled). -/
theorem C1_slot_zero_only :
    ∀ (P : PadParams) (s0 : TouchState) (rest : List TouchState)
      (sum : ℚ × ℚ) (cnt : ℕ) (btns : Buttons),
      P.multitouch = false →
      padScanAux P 0 (s0 :: rest) sum cnt btns =
        ((padScanAux P 0 [s0] sum cnt btns).1 ++ rest,
         (padScanAux P 0 [s0] sum cnt btns).2) := by
  intro P s0 rest sum cnt btns hmt
  have hskip := padScanAux_skip_of_pos P hmt rest
  by_cases h0 : s0.enabled = false
  · simp [padScanAux, h0, hskip]
  · cases hb : s0.baked with
    | Indeterminate =>
      by_cases hlen : P.len (unitspaceOf P s0.pos) ≤ 1
      · simp [padScanAux, h0, hb, hlen, hskip]
      · simp [padScanAux, h0, hb, hlen, hskip]
    | Axis => simp [padScanAux, h0, hb, hskip]
    | Button q => simp [padScanAux, h0, hb, hskip]

/-- C1 witness: the amended theorem at the counterexample state. -/
theorem C1_slot_zero_only_witness :
    padScanAux padParamsEx 0 (initTouch (0, 0) :: [touchFarRight]) (0, 0) 0 noButtons =
      ((padScanAux padParamsEx 0 [initTouch (0, 0)] (0, 0) 0 noButtons).1 ++ [touchFarRight],
       (padScanAux padParamsEx 0 [initTouch (0, 0)] (0, 0) 0 noButtons).2) :=
  C1_slot_zero_only padParamsEx (initTouch (0, 0)) [touchFarRight] (0, 0) 0 noButtons rfl

/-- `clamp(0, DEST_MAX)` lands in `[0, DEST_MAX]`. -/
theorem clampDest_range (z : ℤ) : 0 ≤ clampDest z ∧ clampDest z ≤ DEST_MAX := by
  unfold clampDest DEST_MAX
  split <;> [omega; (split <;> omega)]

/-- The axis pair computed by a flush lies in `[0, DEST_MAX]` on both
components, for every parameter set and scan result. -/
theorem axisFromScan_range (P : PadParams) (sum : ℚ × ℚ) (cnt : ℕ) :
    0 ≤ (axisFromScan P sum cnt).1 ∧ (axisFromScan P sum cnt).1 ≤ DEST_MAX ∧
    0 ≤ (axisFromScan P sum cnt).2 ∧ (axisFromScan P sum cnt).2 ≤ DEST_MAX := by
  unfold axisFromScan
  split
  · split
    · norm_num [DEST_MAX]
    · exact ⟨(clampDest_range _).1, (clampDest_range _).2,
        (clampDest_range _).1, (clampDest_range _).2⟩
  · norm_num [DEST_HALF, DEST_MAX]

/-- C9: every axis value the pad engine emits lies in `[0, DEST_MAX]`
(0 to 1024), for every event, state and parameter set, because the computed
output is clamped (and the no-touch midpoint and the NaN-cast `0` are in
range as well). -/
theorem C9_axis_range :
    ∀ (P : PadParams) (s : PadState) (ev : PadEvent) (idx : ℕ) (v : ℤ),
      OutEvent.axis idx v ∈ (stepPad P s ev).2 → 0 ≤ v ∧ v ≤ DEST_MAX := by
  intro P s ev idx v hmem
  cases ev with
  | syn =>
    have hr := axisFromScan_range P
      (padScanAux P 0 s.touchStates (0, 0) 0 noButtons).2.1
      (padScanAux P 0 s.touchStates (0, 0) 0 noButtons).2.2.1
    simp only [stepPad, padFlush, padComputed] at hmem
    rcases List.mem_append.1 hmem with h | h
    · split_ifs at h
      · simp at h
      · simp only [List.mem_cons, List.not_mem_nil, or_false, OutEvent.axis.injEq] at h
        rcases h with ⟨_, hv⟩ | ⟨_, hv⟩
        · exact hv ▸ ⟨hr.1, hr.2.1⟩
        · exact hv ▸ ⟨hr.2.2.1, hr.2.2.2⟩
    · rcases List.mem_filterMap.1 h with ⟨i, _, heq⟩
      split_ifs at heq <;> simp at heq
  | slot w => simp [stepPad] at hmem
  | posX w => simp [stepPad] at hmem
  | posY w => simp [stepPad] at hmem
  | tracking w =>
    simp only [stepPad] at hmem
    split_ifs at hmem <;> simp at hmem
  | other => simp [stepPad] at hmem

/-- C9 witness: the first flush of the initial state emits the midpoint axis
value 512, which the theorem places in `[0, 1024]`. -/
theorem C9_axis_range_witness : (0 : ℤ) ≤ 512 ∧ (512 : ℤ) ≤ DEST_MAX :=
  C9_axis_range padParamsEx (initPad (0, 0)) .syn 0 512 (by
    norm_num [stepPad, padFlush, padComputed, padScanAux, axisFromScan, initPad,
      initTouch, noButtons, DEST_HALF, Prod.ext_iff, List.range_succ, Buttons.get])

/-- Diffing a button frame against itself yields no events. -/
theorem buttonDelta_self (b : Buttons) :
    ((List.range 4).filterMap fun i =>
      if b.get i = true ∧ b.get i = false then some (OutEvent.key i true)
      else if b.get i = false ∧ b.get i = true then some (OutEvent.key i false)
      else none) = [] := by
  refine List.filterMap_eq_nil_iff.2 fun i _ => ?_
  rcases hb : b.get i <;> simp [hb]

/-- In an association list with distinct keys, `lookup` finds every member
at its own key. -/
theorem lookup_of_mem_nodup :
    ∀ (l : List (ℕ × Bool)) (k : ℕ) (v : Bool),
      (l.map Prod.fst).Nodup → (k, v) ∈ l → l.lookup k = some v := by
  intro l
  induction l with
  | nil => intro k v _ hmem; simp at hmem
  | cons p rest ih =>
    intro k v hnd hmem
    obtain ⟨k0, v0⟩ := p
    have hnd' : k0 ∉ rest.map Prod.fst ∧ (rest.map Prod.fst).Nodup := by
      rw [List.map_cons, List.nodup_cons] at hnd
      exact hnd
    rcases List.mem_cons.1 hmem with heq | hmem2
    · cases heq
      simp [List.lookup]
    · by_cases hk : k = k0
      · subst hk
        exact absurd (List.mem_map_of_mem Prod.fst hmem2) hnd'.1
      · have : (k == k0) = false := beq_false_of_ne hk
        simp [List.lookup, this]
        exact ih k v hnd'.2 hmem2

/-- C8: change suppression.  Pad engine: if the second of two consecutive
flushes computes the same axis pair and button frame as the first, it emits
zero events (the first flush stored its computed values as
`last_axis`/`last_buttons`).  Keys engine: a flush whose current button map
is unchanged since the previous flush (which stored `buttons.clone()` as
`last_buttons`) emits zero events; the map's keys are distinct, as they are
in the source's `HashMap`. -/
theorem C8_change_suppression :
    (∀ (P : PadParams) (s : PadState),
        (padComputed P (padFlush P s).1).2 = (padComputed P s).2 →
        (padFlush P (padFlush P s).1).2 = []) ∧
    (∀ (buttons last : List (ℕ × Bool)),
        (buttons.map Prod.fst).Nodup →
        (keysFlush buttons (keysFlush buttons last).2).1 = []) := by
  constructor
  · intro P s h
    have h1 : (padFlush P s).1.lastAxis = (padComputed P s).2.1 := rfl
    have h2 : (padFlush P s).1.lastButtons = (padComputed P s).2.2 := rfl
    show (let c := padComputed P (padFlush P s).1
      let axis := c.2.1
      let btns := c.2.2
      let axisEvents : List OutEvent :=
        if axis = (padFlush P s).1.lastAxis then []
        else [.axis 0 axis.1, .axis 1 axis.2]
      let btnEvents : List OutEvent :=
        (List.range 4).filterMap fun i =>
          if btns.get i = true ∧ (padFlush P s).1.lastButtons.get i = false then
            some (.key i true)
          else if btns.get i = false ∧ (padFlush P s).1.lastButtons.get i = true then
            some (.key i false)
          else none
      axisEvents ++ btnEvents) = []
    simp only [h, h1, h2, if_pos rfl, List.nil_append]
    exact buttonDelta_self (padComputed P s).2.2
  · intro bs last hnd
    have h2 : (keysFlush bs last).2 = bs := rfl
    rw [h2]
    refine List.filterMap_eq_nil_iff.2 fun kb hkb => ?_
    have hlook : bs.lookup kb.1 = some kb.2 :=
      lookup_of_mem_nodup bs kb.1 kb.2 hnd (by simpa using hkb)
    rcases hv : kb.2 <;> simp [keysFlush, hlook, hv]

/-- C8 witness: both parts at concrete inputs — the pad engine flushed twice
from the initial state (identical computed frames), and a one-key map
flushed twice unchanged. -/
theorem C8_change_suppression_witness :
    (padFlush padParamsEx (padFlush padParamsEx (initPad (0, 0))).1).2 = [] ∧
    (keysFlush [(5, true)] (keysFlush [(5, true)] []).2).1 = [] :=
  ⟨C8_change_suppression.1 padParamsEx (initPad (0, 0)) (by
      norm_num [padFlush, padComputed, padScanAux, axisFromScan, initPad,
        initTouch, noButtons, DEST_HALF, Prod.ext_iff, List.range_succ, Buttons.get]),
   C8_change_suppression.2 [(5, true)] [] (by simp)⟩

/-- The claim's ranking: comparison by `(configuration, interface)` alone. -/
def cfgIfaceLe (a b : Node) : Prop :=
  a.1.2.1 < b.1.2.1 ∨ (a.1.2.1 = b.1.2.1 ∧ a.1.2.2 ≤ b.1.2.2)

instance : DecidableRel cfgIfaceLe := by
  intro a b
  unfold cfgIfaceLe
  infer_instance

theorem nodeLe_total : ∀ a b : Node, nodeLe a b ∨ nodeLe b a := by
  intro a b
  unfold nodeLe
  omega

theorem nodeLe_trans : ∀ a b c : Node, nodeLe a b → nodeLe b c → nodeLe a c := by
  intro a b c
  unfold nodeLe
  omega

instance : IsTotal Node nodeLe := ⟨nodeLe_total⟩

instance : IsTrans Node nodeLe := ⟨fun a b c => nodeLe_trans a b c⟩

/-- The last element of a `nodeLe`-sorted list bounds every element. -/
theorem sorted_getLast_max :
    ∀ (l : List Node) (m : Node), List.Sorted nodeLe l → l.getLast? = some m →
      ∀ x ∈ l, nodeLe x m := by
  intro l
  induction l with
  | nil => simp
  | cons a rest ih =>
    intro m hs hlast x hx
    cases rest with
    | nil =>
      have hma : a = m := by simpa [List.getLast?] using hlast
      have hxa : x = a := by simpa using hx
      subst hma
      subst hxa
      unfold nodeLe
      omega
    | cons b rest2 =>
      have hlast2 : (b :: rest2).getLast? = some m := by
        simpa [List.getLast?_cons_cons] using hlast
      rcases List.mem_cons.1 hx with rfl | hx2
      · exact (List.pairwise_cons.1 hs).1 m (List.mem_of_mem_getLast? hlast2)
      · exact ih m (List.pairwise_cons.1 hs).2 hlast2 x hx2

/-- C2 counterexample: the claim says the node surviving per physical path is
the one ranked highest by `(configuration, interface)`, independently of its
classified device type.  With one `Keys` node at `(9, 9)` and one `Pad` node
at `(1, 1)` on the same path, the code (sort by the derived order on
`((type, configuration, interface), name)`, pop the last) keeps the `Pad`
node at `(1, 1)` even though the `Keys` node outranks it by
`(configuration, interface)`; swapping the two types (everything else fixed)
changes the surviving `(configuration, interface)` — survival does depend on
the classified type. -/
theorem C2_rank_counterexample :
    selectBest nodesMixed = some ((DevType.Pad, 1, 1), 2) ∧
    ((DevType.Keys, 9, 9), 1) ∈ nodesMixed ∧
    ¬ cfgIfaceLe ((DevType.Keys, 9, 9), 1) ((DevType.Pad, 1, 1), 2) ∧
    selectBest nodesMixedSwap = some ((DevType.Pad, 9, 9), 1) := by
  refine ⟨?_, ?_, ?_, ?_⟩ <;> decide

/-- C2 amended: among the parsed nodes sharing one physical path exactly one
survives, namely the maximum under the derived lexicographic order on
`((device type with Keys < Pad), configuration, interface, file name)`: the
classified type is the most significant component, and
`(configuration, interface)` decides only among nodes of equal type. -/
theorem C2_survivor_max :
    ∀ v : List Node, v ≠ [] →
      ∃ m, selectBest v = some m ∧ m ∈ v ∧ ∀ x ∈ v, nodeLe x m := by
  intro v hv
  have hperm := List.perm_insertionSort nodeLe v
  have hsorted := List.sorted_insertionSort nodeLe v
  cases hlast : (List.insertionSort nodeLe v).getLast? with
  | none =>
    have hnil : List.insertionSort nodeLe v = [] := List.getLast?_eq_none.1 hlast
    have : v.length = 0 := by rw [← hperm.length_eq, hnil]; rfl
    exact absurd (List.length_eq_zero.1 this) hv
  | some m =>
    refine ⟨m, by unfold selectBest; exact hlast, ?_, ?_⟩
    · exact hperm.mem_iff.1 (List.mem_of_mem_getLast? hlast)
    · intro x hx
      exact sorted_getLast_max _ m hsorted hlast x (hperm.mem_iff.2 hx)

/-- C2 witness: the amended theorem on a one-node path. -/
theorem C2_survivor_max_witness :
    ∃ m, selectBest [((DevType.Keys, 0, 0), 0)] = some m ∧
      m ∈ [((DevType.Keys, 0, 0), 0)] ∧
      ∀ x ∈ [((DevType.Keys, 0, 0), 0)], nodeLe x m :=
  C2_survivor_max [((DevType.Keys, 0, 0), 0)] (by simp)

/-- `modifyAt` acts pointwise at its index and nowhere else. -/
theorem modifyAt_get? {α : Type} (f : α → α) :
    ∀ (l : List α) (n j : ℕ),
      (modifyAt n f l).get? j = if n = j then (l.get? j).map f else l.get? j := by
  intro l
  induction l with
  | nil => intro n j; cases n <;> simp [modifyAt]
  | cons x xs ih =>
    intro n j
    cases n with
    | zero => cases j <;> simp [modifyAt]
    | succ m =>
      cases j with
      | zero => simp [modifyAt]
      | succ jj => simpa [modifyAt, Nat.succ_inj] using ih m jj

/-- A slot present in the list survives `growTouches` unchanged. -/
theorem growTouches_get? (middle : ℚ × ℚ) (n : ℕ) (l : List TouchState) (j : ℕ)
    (st : TouchState) (h : l.get? j = some st) :
    (growTouches middle n l).get? j = some st := by
  have hj : j < l.length := by
    by_contra hle
    push_neg at hle
    rw [List.get?_eq_none.2 hle] at h
    cases h
  unfold growTouches
  rw [List.get?_append hj]
  exact h

/-- The flush scan preserves each slot's `enabled` flag and position, and
never changes an already-baked (non-`Indeterminate`) classification. -/
theorem padScanAux_preserves (P : PadParams) :
    ∀ (l : List TouchState) (i : ℕ) (sum : ℚ × ℚ) (cnt : ℕ) (btns : Buttons)
      (j : ℕ) (st : TouchState), l.get? j = some st →
      ∃ st', (padScanAux P i l sum cnt btns).1.get? j = some st' ∧
        st'.enabled = st.enabled ∧ st'.pos = st.pos ∧
        (st.baked ≠ .Indeterminate → st'.baked = st.baked) := by
  intro l
  induction l with
  | nil => intro i sum cnt btns j st h; simp at h
  | cons s0 rest ih =>
    intro i sum cnt btns j st h
    cases j with
    | zero =>
      have hst : s0 = st := by simpa using h
      subst hst
      by_cases he : s0.enabled = false
      · exact ⟨s0, by simp [padScanAux, he], rfl, rfl, fun _ => rfl⟩
      · by_cases hg : 0 < i ∧ P.multitouch = false
        · exact ⟨s0, by simp [padScanAux, he, hg], rfl, rfl, fun _ => rfl⟩
        · cases hb : s0.baked with
          | Indeterminate =>
            by_cases hlen : P.len (unitspaceOf P s0.pos) ≤ 1
            · exact ⟨{ s0 with baked := .Axis },
                by simp [padScanAux, he, hg, hb, hlen], rfl, rfl,
                fun hc => absurd rfl hc⟩
            · exact ⟨{ s0 with baked := .Button (quadrant (unitspaceOf P s0.pos)) },
                by simp [padScanAux, he, hg, hb, hlen], rfl, rfl,
                fun hc => absurd rfl hc⟩
          | Axis => exact ⟨s0, by simp [padScanAux, he, hg, hb], rfl, rfl, fun _ => hb⟩
          | Button q => exact ⟨s0, by simp [padScanAux, he, hg, hb], rfl, rfl, fun _ => hb⟩
    | succ jj =>
      have h' : rest.get? jj = some st := by simpa using h
      by_cases he : s0.enabled = false
      · obtain ⟨st', h1, h2, h3, h4⟩ := ih (i + 1) sum cnt btns jj st h'
        exact ⟨st', by simpa [padScanAux, he] using h1, h2, h3, h4⟩
      · by_cases hg : 0 < i ∧ P.multitouch = false
        · obtain ⟨st', h1, h2, h3, h4⟩ := ih (i + 1) sum cnt btns jj st h'
          exact ⟨st', by simpa [padScanAux, he, hg] using h1, h2, h3, h4⟩
        · cases hb : s0.baked with
          | Indeterminate =>
            by_cases hlen : P.len (unitspaceOf P s0.pos) ≤ 1
            · obtain ⟨st', h1, h2, h3, h4⟩ := ih (i + 1)
                (sum.1 + (unitspaceOf P s0.pos).1, sum.2 + (unitspaceOf P s0.pos).2)
                (cnt + 1) btns jj st h'
              exact ⟨st', by simpa [padScanAux, he, hg, hb, hlen] using h1, h2, h3, h4⟩
            · obtain ⟨st', h1, h2, h3, h4⟩ := ih (i + 1) sum cnt
                (btns.set (quadrant (unitspaceOf P s0.pos))) jj st h'
              exact ⟨st', by simpa [padScanAux, he, hg, hb, hlen] using h1, h2, h3, h4⟩
          | Axis =>
            obtain ⟨st', h1, h2, h3, h4⟩ := ih (i + 1)
              (sum.1 + (unitspaceOf P s0.pos).1, sum.2 + (unitspaceOf P s0.pos).2)
              (cnt + 1) btns jj st h'
            exact ⟨st', by simpa [padScanAux, he, hg, hb] using h1, h2, h3, h4⟩
          | Button q =>
            obtain ⟨st', h1, h2, h3, h4⟩ := ih (i + 1) sum cnt (btns.set q) jj st h'
            exact ⟨st', by simpa [padScanAux, he, hg, hb] using h1, h2, h3, h4⟩

/-- C7 counterexample: the claim says a baked classification persists until
the slot's own tracking id is cleared.  With multitouch enabled, two slots
are touched outside the unit circle in the same quadrant, both baking to
`Button 0`; releasing slot 1 (`tracking -1` while `slot = 1`) force-resets
slot 0 to `Indeterminate` and disables it, although slot 0's tracking id was
never cleared (the stuck-button workaround of pad.rs lines 241-253).  The
last conjunct records that `lenEx` is the genuine Euclidean length at the
probed vector `(3, 0)`. -/
theorem C7_sticky_counterexample :
    (((runPad padParamsExMT (initPad (0, 0)) eventsTwoStacked).1.touchStates.get? 0).map
        (fun st => (st.enabled, st.baked)) = some (true, .Button 0)) ∧
    (runPad padParamsExMT (initPad (0, 0)) eventsTwoStacked).1.slot = 1 ∧
    (((stepPad padParamsExMT (runPad padParamsExMT (initPad (0, 0)) eventsTwoStacked).1
          (.tracking (-1))).1.touchStates.get? 0).map
        (fun st => (st.enabled, st.baked)) = some (false, .Indeterminate)) ∧
    (0 ≤ lenEx (3, 0) ∧ lenEx (3, 0) ^ 2 = (3 : ℚ) ^ 2 + 0 ^ 2) := by
  refine ⟨?_, ?_, ?_, ?_⟩ <;>
    norm_num [runPad, stepPad, padFlush, padComputed, padScanAux, unitspaceOf,
      shapeSum, axisFromScan, modifyAt, growTouches, initPad, initTouch, clampQ,
      quadrant, lenEx, padParamsEx, padParamsExMT, truncQ, clampDest, noButtons,
      Buttons.set, Buttons.get, eventsTwoStacked, List.range_succ, Prod.ext_iff]

/-- C7 amended: per engine step, a slot baked to `Axis` keeps that
classification unless its own tracking id is cleared (`tracking -1` while it
is the current slot); a slot baked to `Button q` keeps it unless its own
tracking id is cleared or a `tracking -1` arrives for a current slot that is
itself baked to the same `Button q` while this slot is enabled (the
stuck-button workaround, which also disables it).  In particular position
changes and flushes never alter a baked classification. -/
theorem C7_baked_persistence :
    ∀ (P : PadParams) (s : PadState) (ev : PadEvent) (i : ℕ) (st st' : TouchState),
      s.touchStates.get? i = some st →
      (stepPad P s ev).1.touchStates.get? i = some st' →
      (st.baked = .Axis →
        st'.baked = .Axis ∨ (i = s.slot ∧ ev = .tracking (-1))) ∧
      (∀ q, st.baked = .Button q →
        st'.baked = .Button q ∨
          (ev = .tracking (-1) ∧
            (i = s.slot ∨
              (st.enabled = true ∧
                (s.touchStates.get? s.slot).map TouchState.baked = some (.Button q))))) := by
  intro P s ev i st st' hst hst'
  have easy : st'.baked = st.baked →
      (st.baked = .Axis →
        st'.baked = .Axis ∨ (i = s.slot ∧ ev = .tracking (-1))) ∧
      (∀ q, st.baked = .Button q →
        st'.baked = .Button q ∨
          (ev = .tracking (-1) ∧
            (i = s.slot ∨
              (st.enabled = true ∧
                (s.touchStates.get? s.slot).map TouchState.baked = some (.Button q))))) :=
    fun h => ⟨fun hb => Or.inl (h.trans hb), fun _ hb => Or.inl (h.trans hb)⟩
  cases ev with
  | syn =>
    obtain ⟨st'', h1, _, _, h4⟩ :=
      padScanAux_preserves P s.touchStates 0 (0, 0) 0 noButtons i st hst
    have hts : (stepPad P s .syn).1.touchStates
        = (padScanAux P 0 s.touchStates (0, 0) 0 noButtons).1 := rfl
    rw [hts, h1] at hst'
    obtain rfl : st'' = st' := Option.some.inj hst'
    refine ⟨fun hb => Or.inl ((h4 (by simp [hb])).trans hb),
      fun q hb => Or.inl ((h4 (by simp [hb])).trans hb)⟩
  | slot v =>
    have hts : (stepPad P s (.slot v)).1.touchStates
        = growTouches P.middle (v + 1) s.touchStates := rfl
    rw [hts, growTouches_get? P.middle (v + 1) s.touchStates i st hst] at hst'
    obtain rfl : st = st' := Option.some.inj hst'
    exact easy rfl
  | posX v =>
    have hts : (stepPad P s (.posX v)).1.touchStates
        = modifyAt s.slot (fun t => { t with pos := (v, t.pos.2) }) s.touchStates := rfl
    rw [hts, modifyAt_get? _ s.touchStates s.slot i] at hst'
    split_ifs at hst' with hsl
    · rw [hst] at hst'
      obtain rfl : { st with pos := (v, st.pos.2) } = st' := Option.some.inj hst'
      exact easy rfl
    · rw [hst] at hst'
      obtain rfl : st = st' := Option.some.inj hst'
      exact easy rfl
  | posY v =>
    have hts : (stepPad P s (.posY v)).1.touchStates
        = modifyAt s.slot (fun t => { t with pos := (t.pos.1, v) }) s.touchStates := rfl
    rw [hts, modifyAt_get? _ s.touchStates s.slot i] at hst'
    split_ifs at hst' with hsl
    · rw [hst] at hst'
      obtain rfl : { st with pos := (st.pos.1, v) } = st' := Option.some.inj hst'
      exact easy rfl
    · rw [hst] at hst'
      obtain rfl : st = st' := Option.some.inj hst'
      exact easy rfl
  | other =>
    rw [show (stepPad P s .other).1.touchStates = s.touchStates from rfl, hst] at hst'
    obtain rfl : st = st' := Option.some.inj hst'
    exact easy rfl
  | tracking v =>
    by_cases hv : v = -1
    · subst hv
      by_cases hi : i = s.slot
      · exact ⟨fun _ => Or.inr ⟨hi, rfl⟩, fun q _ => Or.inr ⟨rfl, Or.inl hi⟩⟩
      · have hsl : s.slot ≠ i := fun h => hi h.symm
        have hts1 : ∀ (g : TouchState → TouchState),
            (modifyAt s.slot g s.touchStates).get? i = some st := by
          intro g
          rw [modifyAt_get? g s.touchStates s.slot i, if_neg hsl, hst]
        have hts : (stepPad P s (.tracking (-1))).1.touchStates
            = modifyAt s.slot (fun t => { t with baked := .Indeterminate })
              (match ((modifyAt s.slot (fun t => { t with enabled := false })
                    s.touchStates).get? s.slot).map TouchState.baked with
                | some (.Button b) =>
                  (modifyAt s.slot (fun t => { t with enabled := false })
                    s.touchStates).map fun t =>
                      if t.enabled = true ∧ t.baked = .Button b then
                        { t with enabled := false, baked := .Indeterminate }
                      else t
                | _ => modifyAt s.slot (fun t => { t with enabled := false })
                    s.touchStates) := rfl
        rw [hts, modifyAt_get? _ _ s.slot i, if_neg hsl] at hst'
        rcases hm : ((modifyAt s.slot (fun t => { t with enabled := false })
            s.touchStates).get? s.slot).map TouchState.baked with _ | bk
        · rw [hm] at hst'
          rw [hts1] at hst'
          obtain rfl : st = st' := Option.some.inj hst'
          exact easy rfl
        · cases bk with
          | Indeterminate =>
            rw [hm] at hst'
            rw [hts1] at hst'
            obtain rfl : st = st' := Option.some.inj hst'
            exact easy rfl
          | Axis =>
            rw [hm] at hst'
            rw [hts1] at hst'
            obtain rfl : st = st' := Option.some.inj hst'
            exact easy rfl
          | Button b =>
            rw [hm] at hst'
            rw [List.get?_map, hts1] at hst'
            obtain rfl :
                (if st.enabled = true ∧ st.baked = .Button b then
                  { st with enabled := false, baked := .Indeterminate }
                 else st) = st' := Option.some.inj hst'
            have hbaked : (s.touchStates.get? s.slot).map TouchState.baked
                = some (.Button b) := by
              rcases hsg : s.touchStates.get? s.slot with _ | stj
              · rw [modifyAt_get? _ s.touchStates s.slot s.slot, if_pos rfl, hsg] at hm
                cases hm
              · rw [modifyAt_get? _ s.touchStates s.slot s.slot, if_pos rfl, hsg] at hm
                simpa using hm
            by_cases hcond : st.enabled = true ∧ st.baked = .Button b
            · rw [if_pos hcond]
              constructor
              · intro hb
                exact absurd (hcond.2.symm.trans hb) (by simp)
              · intro q hb
                have hbq : b = q := by
                  have := hcond.2.symm.trans hb
                  simpa using this
                subst hbq
                exact Or.inr ⟨rfl, Or.inr ⟨hcond.1, hbaked⟩⟩
            · exact easy (by rw [if_neg hcond])
    · have hd : decide (v ≠ -1) = true := decide_eq_true hv
      have hts : (stepPad P s (.tracking v)).1.touchStates
          = modifyAt s.slot (fun t => { t with enabled := decide (v ≠ -1) })
            s.touchStates := by
        simp only [stepPad, hd, if_true]
      rw [hts, modifyAt_get? _ s.touchStates s.slot i] at hst'
      split_ifs at hst' with hsl
      · rw [hst] at hst'
        obtain rfl : { st with enabled := decide (v ≠ -1) } = st'
          := Option.some.inj hst'
        exact easy rfl
      · rw [hst] at hst'
        obtain rfl : st = st' := Option.some.inj hst'
        exact easy rfl

/-- C7 witness: the amended theorem applied to a position event on an
`Axis`-baked slot — the classification survives. -/
theorem C7_baked_persistence_witness :
    ({ enabled := true, pos := ((7 : ℚ), (5 : ℚ)), baked := TouchBake.Axis } : TouchState).baked
        = TouchBake.Axis ∨ (0 = stateAxisBaked.slot ∧ PadEvent.posX 7 = PadEvent.tracking (-1)) :=
  (C7_baked_persistence padParamsEx stateAxisBaked (.posX 7) 0
    { enabled := true, pos := (5, 5), baked := .Axis }
    { enabled := true, pos := (7, 5), baked := .Axis }
    rfl rfl).1 rfl

end Trackjoy
